import Mathlib

/-!
Verification of the claudemon turn-orchestration engine
(`src/platform/qt/ClaudeController.cpp` / `.h`).

The definitions below are a shallow embedding of the controller code:
pure helpers become Lean functions, the stateful parts become explicit
state-passing functions or a step relation on a controller-state type.
Text is modelled as `List Char`; case mapping is the per-character ASCII
mapping (all vocabulary and directive keywords are ASCII).
-/

namespace Claudemon

/-! ### Constants (ClaudeController.h, lines 209-222) -/

def LOOP_INTERVAL_MS : Nat := 2000
def REQUEST_TIMEOUT_MS : Nat := 30000
def MAX_CONSECUTIVE_ERRORS : Nat := 3
def BASE_BACKOFF_MS : Nat := 1000
def MAX_BACKOFF_MS : Nat := 30000
def MAX_INPUT_COUNT : Nat := 10
def INPUT_PACING_MS : Nat := 50
def DIRECTION_HOLD_MS : Nat := 150
def MAX_NOTES : Nat := 100
def MAX_CONVERSATION_HISTORY : Nat := 10
def MAX_TURN_HISTORY : Nat := 10
def MAX_TURN_RECORDS : Nat := 10

/-! ### Backoff state (ClaudeController.cpp, lines 182-191, 609-630, 706-741)

`m_consecutiveErrors` and `m_backoffMultiplier` are C++ `int`s; in every
reachable execution the critical-error escalation at
`MAX_CONSECUTIVE_ERRORS = 3` bounds the multiplier well below overflow,
so they are modelled as `Nat`. -/

structure Backoff where
  errors : Nat
  multiplier : Nat
deriving DecidableEq, Repr

/-- `resetBackoff()` (lines 182-186). -/
def resetBackoff : Backoff := ⟨0, 1⟩

/-- `calculateBackoffMs()` (lines 188-191): `qMin(BASE_BACKOFF_MS * m_backoffMultiplier, MAX_BACKOFF_MS)`. -/
def calculateBackoffMs (b : Backoff) : Nat :=
  min (BASE_BACKOFF_MS * b.multiplier) MAX_BACKOFF_MS

/-- The failure bookkeeping `m_consecutiveErrors++; m_backoffMultiplier *= 2;`
performed on the timeout path (lines 615-616), the network-error path
(lines 650-651) and the endpoint-error path (lines 714-715). -/
def applyFailure (b : Backoff) : Backoff := ⟨b.errors + 1, b.multiplier * 2⟩

/-- Backoff state after `n` consecutive failures starting from the reset state. -/
def backoffAfterFailures : Nat → Backoff
  | 0 => resetBackoff
  | n + 1 => applyFailure (backoffAfterFailures n)

inductive ErrOutcome where
  | critical
  | recoverable
deriving DecidableEq, Repr

/-- Result of one failure-handling step: the routing decision, the updated
backoff state, and the game-loop interval written by
`m_gameLoopTimer->setInterval(...)` on the recoverable path (`none` when the
step escalates, since `handleCriticalError` stops the loop instead). -/
structure ErrStep where
  outcome : ErrOutcome
  backoff : Backoff
  newLoopInterval : Option Nat
deriving DecidableEq, Repr

/-- The error kinds the endpoint-error branch treats as critical
(ClaudeController.cpp, lines 719-723). -/
def criticalErrorTypes : List String :=
  ["rate_limit_error", "overloaded_error", "insufficient_quota",
   "invalid_api_key", "authentication_error"]

/-- The endpoint-error branch of `handleApiResponse` (lines 709-737): the body
contained a structured `error` object of kind `errorType`. -/
def handleEndpointError (errorType : String) (b : Backoff) : ErrStep :=
  let b' := applyFailure b
  let isCritical := errorType ∈ criticalErrorTypes
  if isCritical ∨ b'.errors ≥ MAX_CONSECUTIVE_ERRORS then
    ⟨.critical, b', none⟩
  else
    ⟨.recoverable, b', some (LOOP_INTERVAL_MS + calculateBackoffMs b')⟩

/-- `onRequestTimeout()` (lines 609-630), starting from an in-flight request. -/
def handleTimeout (b : Backoff) : ErrStep :=
  let b' := applyFailure b
  if b'.errors ≥ MAX_CONSECUTIVE_ERRORS then
    ⟨.critical, b', none⟩
  else
    ⟨.recoverable, b', some (LOOP_INTERVAL_MS + calculateBackoffMs b')⟩

/-- The success path of `handleApiResponse` (lines 739-741): reset the backoff
state and restore the nominal loop interval. -/
def handleSuccess (_b : Backoff) : Backoff × Nat :=
  (resetBackoff, LOOP_INTERVAL_MS)

/-! ### Notes store (ClaudeController.cpp, lines 1082-1154) -/

structure ClaudeNote where
  id : Nat
  timestamp : String
  content : String
  verificationStatus : String
  writtenThisTurn : Bool
deriving DecidableEq, Repr

structure NotesState where
  notes : List ClaudeNote
  nextNoteId : Nat
deriving DecidableEq, Repr

def initialNotesState : NotesState := ⟨[], 1⟩

/-- `addNote(content)` (lines 1082-1116): assign `m_nextNoteId++`, append,
evict oldest past `MAX_NOTES`, and renumber ids 1..count once the (updated)
counter exceeds `MAX_NOTES * 2`.  The timestamp string is an opaque input. -/
def addNote (s : NotesState) (timestamp content : String) : NotesState :=
  let note : ClaudeNote :=
    { id := s.nextNoteId, timestamp := timestamp, content := content,
      verificationStatus := "UNVERIFIED", writtenThisTurn := true }
  let notes := s.notes ++ [note]
  let notes := notes.drop (notes.length - min MAX_NOTES notes.length)
  let nextId := s.nextNoteId + 1
  if nextId > MAX_NOTES * 2 then
    { notes := notes.enum.map (fun p => { p.2 with id := p.1 + 1 }),
      nextNoteId := notes.length + 1 }
  else
    { notes := notes, nextNoteId := nextId }

/-- `clearNote(noteId)` (lines 1118-1137): remove the first note whose id
matches, if any. -/
def clearNote (s : NotesState) (noteId : Nat) : NotesState :=
  match s.notes.findIdx? (fun n => n.id = noteId) with
  | some i => { s with notes := s.notes.eraseIdx i }
  | none => s

/-- `clearAllNotes()` (lines 1139-1154): only when the store is non-empty,
clear the list and reset the id counter to 1; on an empty store it is a no-op. -/
def clearAllNotes (s : NotesState) : NotesState :=
  if s.notes.isEmpty then s else { notes := [], nextNoteId := 1 }

/-! ### Text primitives

Text is `List Char`.  `asciiLower` is the per-character ASCII case map
(`QString::toLower` restricted to the ASCII range, which covers the whole
parsing vocabulary).  `isSpaceChar` is the ASCII whitespace class used by
`\s` and `QString::simplified`; `isWordChar` is PCRE's default (ASCII) `\w`. -/

def asciiLower (c : Char) : Char :=
  if 'A' ≤ c ∧ c ≤ 'Z' then Char.ofNat (c.toNat + 32) else c

def isSpaceChar (c : Char) : Bool :=
  c = ' ' ∨ c = '\t' ∨ c = '\n' ∨ c = '\r' ∨ c = Char.ofNat 11 ∨ c = Char.ofNat 12

def isAsciiDigit (c : Char) : Bool := '0' ≤ c ∧ c ≤ '9'

def isWordChar (c : Char) : Bool :=
  ('a' ≤ c ∧ c ≤ 'z') ∨ ('A' ≤ c ∧ c ≤ 'Z') ∨ isAsciiDigit c ∨ c = '_'

def strL (s : String) : List Char := s.toList

def startsWithL : List Char → List Char → Bool
  | [], _ => true
  | _ :: _, [] => false
  | p :: ps, c :: cs => p = c && startsWithL ps cs

def dropPrefixL : List Char → List Char → Option (List Char)
  | [], s => some s
  | _ :: _, [] => none
  | p :: ps, c :: cs => if p = c then dropPrefixL ps cs else none

def containsSubL : List Char → List Char → Bool
  | [], pat => pat.isEmpty
  | c :: cs, pat => startsWithL pat (c :: cs) || containsSubL cs pat

def trimL (s : List Char) : List Char :=
  ((s.dropWhile isSpaceChar).reverse.dropWhile isSpaceChar).reverse

def splitLines : List Char → List (List Char)
  | [] => [[]]
  | c :: rest =>
    if c = '\n' then [] :: splitLines rest
    else
      match splitLines rest with
      | [] => [[c]]
      | l :: ls => (c :: l) :: ls

def splitOnSpaces : List Char → List (List Char)
  | [] => [[]]
  | c :: rest =>
    if isSpaceChar c then [] :: splitOnSpaces rest
    else
      match splitOnSpaces rest with
      | [] => [[c]]
      | l :: ls => (c :: l) :: ls

def joinWithSpace : List (List Char) → List Char
  | [] => []
  | [w] => w
  | w :: ws => w ++ ' ' :: joinWithSpace ws

/-- `QString::simplified()`: trim and collapse internal whitespace runs to a
single space. -/
def simplifiedL (s : List Char) : List Char :=
  joinWithSpace ((splitOnSpaces s).filter (fun w => ¬ w.isEmpty))

/-! ### Command parser (`parseInputsFromResponse`, ClaudeController.cpp lines 928-999) -/

/-- The parsed actuation command.  The source's `ClaudeInput::reasoning`
field (a verbatim copy of the response text, unused by any claim) is omitted;
`count` is a C++ `int` that is always non-negative here (`qMin` of a
non-negative `toInt` result and `MAX_INPUT_COUNT`), modelled as `Nat`. -/
structure ClaudeInput where
  button : String
  count : Nat
deriving DecidableEq, Repr

/-- The fixed button vocabulary, in the order it appears both in the regex
alternation and in the emergency-fallback list (lines 958 and 974). -/
def buttonNames : List String :=
  ["up", "down", "left", "right", "a", "b", "l", "r", "start", "select"]

def inputLineMarkers : List (List Char) :=
  [strL "inputs:", strL "input:", strL "actions:", strL "action:"]

/-- Line test of the designator search (lines 935-938):
`line.trimmed().toLower()` starts with one of the markers. -/
def isInputDesignatorLine (line : List Char) : Bool :=
  inputLineMarkers.any (fun m => startsWithL m ((trimL line).map asciiLower))

/-- `line.mid(line.indexOf(':') + 1).trimmed()` (line 939): everything after
the first colon (the whole line when there is none, as `indexOf` returns -1),
trimmed. -/
def designatorPayload (line : List Char) : List Char :=
  trimL (if line.contains ':' then (line.dropWhile (fun c => c ≠ ':')).drop 1 else line)

/-- Lines 931-947: take the payload of the first designator line; when no such
line exists, or its payload is empty, fall back to the whole response. -/
def selectInputLine (response : List Char) : List Char :=
  let inputLine :=
    match (splitLines response).find? isInputDesignatorLine with
    | some line => designatorPayload line
    | none => []
  if inputLine.isEmpty then response else inputLine

def markdownChars : List Char := [Char.ofNat 96, '*', '_']

def punctChars : List Char := ['.', ',', '!', '?', ';', ':', Char.ofNat 34, Char.ofNat 39]

/-- Lines 949-955: lowercase, strip markdown characters, replace punctuation
with spaces, and `simplified()`. -/
def cleanText (inputLine : List Char) : List Char :=
  simplifiedL (((inputLine.map asciiLower).filter
    (fun c => ¬ markdownChars.contains c)).map
    (fun c => if punctChars.contains c then ' ' else c))

def cleanedInput (response : List Char) : List Char :=
  cleanText (selectInputLine response)

/-- One match of `\b(button)(?:\s+(\d+))?\b`: the button, the captured digit
group if any, the last character the match consumed (needed for the `\b`
test of the next match) and the remaining text. -/
structure TokenMatch where
  button : String
  countDigits : Option (List Char)
  lastChar : Char
  rest : List Char
deriving DecidableEq, Repr

/-- The greedy optional group `(?:\s+(\d+))` followed by the final `\b`:
a non-empty whitespace run, then a non-empty maximal digit run whose next
character is not a word character.  Backtracking inside the group cannot
yield any other match (giving back digits lands before a digit, a word
character; giving back whitespace lands before whitespace, not a digit),
so when this fails the regex engine drops the whole optional group. -/
def tryCountSuffix (rest : List Char) : Option (List Char × List Char) :=
  if (rest.takeWhile isSpaceChar).isEmpty then none
  else
    let afterWs := rest.dropWhile isSpaceChar
    let ds := afterWs.takeWhile isAsciiDigit
    let afterDs := afterWs.dropWhile isAsciiDigit
    if ds.isEmpty then none
    else match afterDs with
      | [] => some (ds, [])
      | c :: _ => if isWordChar c then none else some (ds, afterDs)

/-- Try one alternative `w` of the alternation at the current position:
the literal `w`, then the greedy optional count group, then the final `\b`
(when the group is dropped, the character after `w` must not be a word
character). -/
def tryAlternative (w : String) (s : List Char) : Option TokenMatch :=
  match dropPrefixL (strL w) s with
  | none => none
  | some rest =>
    match tryCountSuffix rest with
    | some (ds, rem) => some ⟨w, some ds, ds.getLastD ' ', rem⟩
    | none =>
      match rest with
      | [] => some ⟨w, none, (strL w).getLastD ' ', []⟩
      | c :: _ =>
        if isWordChar c then none
        else some ⟨w, none, (strL w).getLastD ' ', rest⟩

/-- Attempt a match anchored at the current position.  Every alternative
starts with an ASCII letter (a word character), so the leading `\b` holds
iff the preceding character is absent or not a word character.  Alternatives
are tried left to right, as PCRE does. -/
def tryMatchHere (prev : Option Char) (s : List Char) : Option TokenMatch :=
  if prev.all (fun c => ¬ isWordChar c) then
    buttonNames.findSome? (fun w => tryAlternative w s)
  else none

def scanTokensAux : Nat → Option Char → List Char → List (String × Option (List Char))
  | 0, _, _ => []
  | _ + 1, _, [] => []
  | fuel + 1, prev, c :: rest =>
    match tryMatchHere prev (c :: rest) with
    | some m => (m.button, m.countDigits) :: scanTokensAux fuel (some m.lastChar) m.rest
    | none => scanTokensAux fuel (some c) rest

/-- Global matching of `\b(up|down|left|right|a|b|l|r|start|select)(?:\s+(\d+))?\b`
over the cleaned text: leftmost match first, resuming after each match, as
`QRegularExpressionMatchIterator` does (line 958-959).  Every match consumes
at least one character, so fuel `s.length` never runs out. -/
def scanTokens (s : List Char) : List (String × Option (List Char)) :=
  scanTokensAux s.length none s

def digitsToNat (ds : List Char) : Nat :=
  ds.foldl (fun a c => a * 10 + (c.toNat - '0'.toNat)) 0

/-- `QString::toInt` on the captured digit group: its numeric value when it
fits in a C++ `int`, else 0 (`toInt` returns 0 on overflow). -/
def qStringToInt (ds : List Char) : Nat :=
  if digitsToNat ds ≤ 2147483647 then digitsToNat ds else 0

/-- Lines 965-967: default count 1 when the group is absent, else
`qMin(captured.toInt(), MAX_INPUT_COUNT)`. -/
def emittedCount : Option (List Char) → Nat
  | none => 1
  | some ds => min (qStringToInt ds) MAX_INPUT_COUNT

/-- Commands produced by the primary tokenizer (lines 957-970). -/
def primaryInputs (cleaned : List Char) : List ClaudeInput :=
  (scanTokens cleaned).map (fun t => { button := t.1, count := emittedCount t.2 })

/-- Emergency fallback (lines 973-986): the first button name that occurs as
a substring anywhere in the cleaned text. -/
def emergencyFallback (cleaned : List Char) : Option String :=
  buttonNames.find? (fun w => containsSubL cleaned (strL w))

/-- `parseInputsFromResponse` (lines 928-999): primary tokenizer, then the
substring fallback (count 1), then the ultimate fallback `a` (count 1). -/
def parseInputsFromResponse (response : List Char) : List ClaudeInput :=
  let cleaned := cleanedInput response
  let inputs := primaryInputs cleaned
  let inputs :=
    if inputs.isEmpty then
      match emergencyFallback cleaned with
      | some w => [{ button := w, count := 1 }]
      | none => []
    else inputs
  if inputs.isEmpty then [{ button := "a", count := 1 }] else inputs

/-- The repeat-count rule as claim C4 states it: clamped to
`[1, MAX_INPUT_COUNT]` (this definition follows the claim's words, for
comparison with `emittedCount`). -/
def specClampCount (n : Nat) : Nat := max 1 (min n MAX_INPUT_COUNT)

/-! ### Turn scoring (handleApiResponse, ClaudeController.cpp lines 792-841) -/

inductive TurnResult where
  | SUCCESS
  | FAILED
  | UNKNOWN
deriving DecidableEq, Repr

/-- Lines 808-815: the command list contains a directional button. -/
def isMovementCommandList (inputs : List ClaudeInput) : Bool :=
  inputs.any (fun i =>
    i.button = "up" ∨ i.button = "down" ∨ i.button = "left" ∨ i.button = "right")

/-- The position-tracking fields of the controller involved in scoring:
`m_hasPositionBefore`/`m_positionBeforeX/Y` (captured at the start of the
turn) and `m_hasKnownPosition`/`m_lastKnownX/Y` (the latest ground truth). -/
structure PositionState where
  hasPositionBefore : Bool
  positionBeforeX : Int
  positionBeforeY : Int
  hasKnownPosition : Bool
  lastKnownX : Int
  lastKnownY : Int
deriving DecidableEq, Repr

/-- Lines 799-804: `record.positionChanged`. -/
def positionChanged (p : PositionState) : Bool :=
  p.hasPositionBefore && p.hasKnownPosition &&
    (p.positionBeforeX ≠ p.lastKnownX ∨ p.positionBeforeY ≠ p.lastKnownY)

/-- Lines 806-835: classification of the completed turn
(`record.hadPosition` is `m_hasPositionBefore`, line 792). -/
def scoreTurn (inputs : List ClaudeInput) (p : PositionState) : TurnResult × String :=
  if isMovementCommandList inputs then
    if p.hasPositionBefore then
      if positionChanged p then
        (.SUCCESS, "Position changed")
      else
        (.FAILED, "Position unchanged - movement blocked or action needed first")
    else
      (.UNKNOWN, "Position data not available")
  else
    (.UNKNOWN, "Non-movement action - cannot auto-verify")

/-! ### Stuck-pattern detection (`checkForStuckPattern`, lines 1209-1253) -/

/-- One entry of `m_turnHistory`: the per-turn input strings (such as
`"up x3"`) recorded by `processInputs`. -/
structure TurnHistoryEntry where
  timestamp : String
  inputs : List String
deriving DecidableEq, Repr

def asciiUpper (c : Char) : Char :=
  if 'a' ≤ c ∧ c ≤ 'z' then Char.ofNat (c.toNat - 32) else c

def lowerStr (s : String) : String := ⟨(strL s).map asciiLower⟩

def upperStr (s : String) : String := ⟨(strL s).map asciiUpper⟩

/-- `input.split(" ").first().toLower()` (line 1225). -/
def firstTokenLower (s : String) : String :=
  ⟨((strL s).takeWhile (fun c => c ≠ ' ')).map asciiLower⟩

/-- `isDirectionalButton` (lines 1545-1548). -/
def isDirectionalButton (b : String) : Bool :=
  lowerStr b = "up" ∨ lowerStr b = "down" ∨ lowerStr b = "left" ∨ lowerStr b = "right"

/-- The last `qMin(3, size)` turns inspected by the loop at lines 1220-1221. -/
def lastTurnsWindow (th : List TurnHistoryEntry) : List TurnHistoryEntry :=
  th.drop (th.length - min 3 th.length)

/-- The loop state of `checkForStuckPattern`: `repeatedDirection` (a QString,
empty when unset), `directionCount`, `hasRecentMovement`. -/
structure StuckScan where
  repeatedDirection : String
  directionCount : Nat
  hasRecentMovement : Bool
deriving DecidableEq, Repr

/-- The body of the nested loop (lines 1224-1236) for one input string. -/
def stuckStep (st : StuckScan) (input : String) : StuckScan :=
  let button := firstTokenLower input
  if isDirectionalButton button then
    if st.repeatedDirection = "" then
      { repeatedDirection := button, directionCount := 1, hasRecentMovement := true }
    else if button = st.repeatedDirection then
      { st with directionCount := st.directionCount + 1, hasRecentMovement := true }
    else
      { st with hasRecentMovement := true }
  else st

def stuckScanResult (th : List TurnHistoryEntry) : StuckScan :=
  ((lastTurnsWindow th).flatMap (fun t => t.inputs)).foldl stuckStep ⟨"", 0, false⟩

/-- The advisory text built at lines 1241-1247 (`%1` replaced by the
upper-cased repeated direction). -/
def stuckAdviceText (direction : String) : String :=
  "## STUCK WARNING\nYou've pressed " ++ upperStr direction ++
  " repeatedly without progress. This usually means:\n" ++
  "1. There's an obstacle or NPC blocking you\n" ++
  "2. You need to complete an action first (interact with something, set clock, talk to someone)\n" ++
  "3. You're in a menu and need to press B to exit\n\n" ++
  "Try: Press A to interact with whatever is in front of you, or look for objects in the room you haven't examined."

/-- `checkForStuckPattern()` (lines 1209-1253). -/
def checkForStuckPattern (th : List TurnHistoryEntry) : String :=
  if th.length < 2 then ""
  else
    let st := stuckScanResult th
    if 4 ≤ st.directionCount ∧ st.hasRecentMovement then stuckAdviceText st.repeatedDirection
    else ""

/-- The directional command tokens of a list of input strings. -/
def dirListOfInputs (l : List String) : List String :=
  (l.map firstTokenLower).filter isDirectionalButton

/-- The directional command tokens of the last-3-turns window (the tokens the
scan loop classifies as directional). -/
def dirTokens (th : List TurnHistoryEntry) : List String :=
  dirListOfInputs ((lastTurnsWindow th).flatMap (fun t => t.inputs))

/-- Claim-side predicate, following the claim's words: some direction occurs
at least 4 times among the directional commands of the last 3 recorded turns. -/
def specSameDirectionRepeated (th : List TurnHistoryEntry) : Prop :=
  ∃ d, isDirectionalButton d = true ∧ 4 ≤ (dirTokens th).count d

/-- A turn record as kept in `m_turnRecords` (ClaudeController.h lines 50-62),
restricted to the fields the claims mention. -/
structure TurnRecordM where
  turnNumber : Nat
  inputs : List String
  positionBeforeX : Int
  positionBeforeY : Int
  positionAfterX : Int
  positionAfterY : Int
  hadPosition : Bool
  positionHasChanged : Bool
  result : TurnResult
deriving DecidableEq, Repr

/-- Claim-side predicate, following the claim's words: no net positional
movement over the last 3 recorded turns (every record of the window has
ground truth and identical before/after coordinates). -/
def specNoNetMovement (recs : List TurnRecordM) : Prop :=
  ∀ r ∈ recs.drop (recs.length - min 3 recs.length),
    r.hadPosition = true ∧ r.positionBeforeX = r.positionAfterX ∧
    r.positionBeforeY = r.positionAfterY

/-- A concrete turn history: the last 3 turns contain the directional
commands down, up, up, up, up (the direction `up` occurs 4 times, but the
first directional token seen is `down`). -/
def exStuckHistory : List TurnHistoryEntry :=
  [⟨"t1", ["down"]⟩, ⟨"t2", ["up", "up"]⟩, ⟨"t3", ["up", "up"]⟩]

/-- Turn records matching `exStuckHistory` in which the position never moved. -/
def exStuckRecords : List TurnRecordM :=
  [⟨1, ["down"], 5, 5, 5, 5, true, false, .FAILED⟩,
   ⟨2, ["up", "up"], 5, 5, 5, 5, true, false, .FAILED⟩,
   ⟨3, ["up", "up"], 5, 5, 5, 5, true, false, .FAILED⟩]

/-! ### Input pacer (`processInputs` lines 1428-1493,
`processNextPendingInput` lines 1550-1577, pacing-timer lambda lines 77-86) -/

/-- `GBAKey` codes, modelled from mGBA's `enum GBAKey` (the header is outside
this repository); only non-negativity and distinctness matter here. -/
def GBA_KEY_A : Int := 0
def GBA_KEY_B : Int := 1
def GBA_KEY_SELECT : Int := 2
def GBA_KEY_START : Int := 3
def GBA_KEY_RIGHT : Int := 4
def GBA_KEY_LEFT : Int := 5
def GBA_KEY_UP : Int := 6
def GBA_KEY_DOWN : Int := 7
def GBA_KEY_R : Int := 8
def GBA_KEY_L : Int := 9

/-- `getGBAKeyCode` (lines 1528-1543). -/
def getGBAKeyCode (button : String) : Int :=
  if lowerStr button = "a" then GBA_KEY_A
  else if lowerStr button = "b" then GBA_KEY_B
  else if lowerStr button = "l" then GBA_KEY_L
  else if lowerStr button = "r" then GBA_KEY_R
  else if lowerStr button = "start" then GBA_KEY_START
  else if lowerStr button = "select" then GBA_KEY_SELECT
  else if lowerStr button = "up" then GBA_KEY_UP
  else if lowerStr button = "down" then GBA_KEY_DOWN
  else if lowerStr button = "left" then GBA_KEY_LEFT
  else if lowerStr button = "right" then GBA_KEY_RIGHT
  else -1

/-- `PendingInput` (ClaudeController.h lines 192-197).  `remainingCount` is a
C++ `int`; its only uses are `remainingCount--; if (remainingCount <= 0)
removeFirst`, so `Nat` with truncated subtraction is equivalent (removal
happens exactly when the value before the decrement is ≤ 1, including 0). -/
structure PendingInput where
  keyCode : Int
  remainingCount : Nat
  isDirectional : Bool
  originalCount : Nat
deriving DecidableEq, Repr

/-- The queue-building step of `processInputs` (lines 1438-1455): drop unknown
buttons; a directional command with count > 1 is queued as one hold. -/
def toPendingInput (i : ClaudeInput) : Option PendingInput :=
  if getGBAKeyCode i.button < 0 then none
  else some
    { keyCode := getGBAKeyCode i.button, isDirectional := isDirectionalButton i.button,
      originalCount := i.count,
      remainingCount := if isDirectionalButton i.button ∧ 1 < i.count then 1 else i.count }

def buildPendingInputs (inputs : List ClaudeInput) : List PendingInput :=
  inputs.filterMap toPendingInput

/-- One discrete press emitted by the pacer: the key and the duration for
which it is held before the pacing timer releases it (the next press starts
only after this release, so consecutive events never overlap). -/
structure PressEvent where
  keyCode : Int
  holdMs : Nat
deriving DecidableEq, Repr

/-- Timer duration chosen at lines 1570-1574. -/
def pendingDuration (p : PendingInput) : Nat :=
  if p.isDirectional ∧ 1 < p.originalCount then DIRECTION_HOLD_MS * p.originalCount
  else INPUT_PACING_MS

def pacerFuel (q : List PendingInput) : Nat :=
  q.foldr (fun p a => p.remainingCount + 1 + a) 0

/-- One `processNextPendingInput` activation per recursive step: press the
front key for its duration, decrement, requeue or drop.  Fuel only bounds the
recursion; `pacerFuel` steps always suffice (each step strictly decreases it). -/
def pacerEventsAux : Nat → List PendingInput → List PressEvent
  | 0, _ => []
  | _ + 1, [] => []
  | fuel + 1, p :: rest =>
    if p.remainingCount ≤ 1 then
      ⟨p.keyCode, pendingDuration p⟩ :: pacerEventsAux fuel rest
    else
      ⟨p.keyCode, pendingDuration p⟩ ::
        pacerEventsAux fuel ({ p with remainingCount := p.remainingCount - 1 } :: rest)

/-- The full press trace the pacer emits while draining queue `q`. -/
def pacerRun (q : List PendingInput) : List PressEvent :=
  pacerEventsAux (pacerFuel q) q

def expandPending (p : PendingInput) : List PressEvent :=
  List.replicate (max p.remainingCount 1) ⟨p.keyCode, pendingDuration p⟩

/-- The presses one parsed command contributes: nothing for an unknown
button, one scaled hold for a directional command with count > 1, and
`count` separately paced taps otherwise. -/
def inputPressEvents (i : ClaudeInput) : List PressEvent :=
  match toPendingInput i with
  | none => []
  | some p => expandPending p

/-! ### Controller state machine (timers, single-flight request, key hold)

The mutable controller state relevant to claims C9 and C10, with one step
function per event source (public calls, timer fires, reply completion).
All of these re-enter the single Qt event loop thread, so an execution is a
sequence of these atomic steps. -/

inductive AiModel where
  | ModelOpus
  | ModelSonnet
  | ModelHaiku
deriving DecidableEq, Repr

structure ControllerState where
  running : Bool
  requestInFlight : Bool
  modelLocked : Bool
  loopTimerActive : Bool
  timeoutTimerActive : Bool
  pacingTimerActive : Bool
  loopInterval : Nat
  pacingInterval : Nat
  backoff : Backoff
  model : AiModel
  thinkingEnabled : Bool
  webSearchEnabled : Bool
  pendingInputs : List PendingInput
  currentKey : Int
  coreKeys : List Int
deriving DecidableEq, Repr

/-- Constructor state (lines 39-89); `model`, `thinkingEnabled` and
`webSearchEnabled` are parameters because `loadSessionFromDisk` may restore
any persisted values before the first event. -/
def initialState (m : AiModel) (thinking webSearch : Bool) : ControllerState :=
  { running := false, requestInFlight := false, modelLocked := false,
    loopTimerActive := false, timeoutTimerActive := false, pacingTimerActive := false,
    loopInterval := LOOP_INTERVAL_MS, pacingInterval := INPUT_PACING_MS,
    backoff := ⟨0, 1⟩, model := m, thinkingEnabled := thinking,
    webSearchEnabled := webSearch, pendingInputs := [], currentKey := -1,
    coreKeys := [] }

/-- The set of keys asserted in the emulated core: `addKey` (idempotent). -/
def coreAddKey (keys : List Int) (k : Int) : List Int :=
  if keys.contains k then keys else k :: keys

/-- `clearKey`. -/
def coreClearKey (keys : List Int) (k : Int) : List Int :=
  keys.filter (fun x => x ≠ k)

/-- `processNextPendingInput()` (lines 1550-1577). -/
def stepProcessNext (s : ControllerState) : ControllerState :=
  match s.pendingInputs with
  | [] => s
  | front :: rest =>
    if s.running then
      { s with
        coreKeys := coreAddKey s.coreKeys front.keyCode,
        currentKey := front.keyCode,
        pendingInputs :=
          if front.remainingCount ≤ 1 then rest
          else { front with remainingCount := front.remainingCount - 1 } :: rest,
        pacingInterval := pendingDuration front,
        pacingTimerActive := true }
    else s

/-- `startGameLoop()` success path (lines 145-165). -/
def stepStart (s : ControllerState) : ControllerState :=
  { s with backoff := resetBackoff, running := true, requestInFlight := false,
           modelLocked := true, loopTimerActive := true }

/-- `stopGameLoop()` (lines 167-180). -/
def stepStop (s : ControllerState) : ControllerState :=
  { s with running := false, requestInFlight := false, modelLocked := false,
           loopTimerActive := false, timeoutTimerActive := false,
           pacingTimerActive := false, pendingInputs := [],
           coreKeys := if 0 ≤ s.currentKey then coreClearKey s.coreKeys s.currentKey
                       else s.coreKeys,
           currentKey := -1 }

/-- `setModel` (lines 130-133). -/
def stepSetModel (s : ControllerState) (m : AiModel) : ControllerState :=
  if s.modelLocked then s else { s with model := m }

/-- `setThinkingEnabled` (lines 135-138). -/
def stepSetThinkingEnabled (s : ControllerState) (b : Bool) : ControllerState :=
  if s.modelLocked then s else { s with thinkingEnabled := b }

/-- `setWebSearchEnabled` (lines 140-143). -/
def stepSetWebSearchEnabled (s : ControllerState) (b : Bool) : ControllerState :=
  if s.modelLocked then s else { s with webSearchEnabled := b }

/-- A game-loop timer tick (`captureAndSendScreenshot`, lines 269-607),
restricted to its state effects: skip when not running or already in
flight, else dispatch one request and arm the timeout timer. -/
def stepTick (s : ControllerState) : ControllerState :=
  if s.running ∧ ¬ s.requestInFlight then
    { s with requestInFlight := true, timeoutTimerActive := true }
  else s

/-- `onRequestTimeout()` (lines 609-630); the single-shot timer disarms on
fire.  `handleCriticalError` (lines 884-910) calls `stopGameLoop`. -/
def stepTimeoutFire (s : ControllerState) : ControllerState :=
  if s.timeoutTimerActive then
    if s.requestInFlight then
      if MAX_CONSECUTIVE_ERRORS ≤ (applyFailure s.backoff).errors then
        stepStop { s with timeoutTimerActive := false, requestInFlight := false,
                          backoff := applyFailure s.backoff }
      else
        { s with timeoutTimerActive := false, requestInFlight := false,
                 backoff := applyFailure s.backoff,
                 loopInterval := LOOP_INTERVAL_MS + calculateBackoffMs (applyFailure s.backoff) }
    else { s with timeoutTimerActive := false }
  else s

/-- `handleApiResponse` when the body carried a structured error object
(lines 632-737): clear the in-flight flag and the timeout timer, then route
through the endpoint-error classification. -/
def stepRespFailure (s : ControllerState) (errorType : String) : ControllerState :=
  if (handleEndpointError errorType s.backoff).outcome = ErrOutcome.critical then
    stepStop { s with requestInFlight := false, timeoutTimerActive := false,
                      backoff := (handleEndpointError errorType s.backoff).backoff }
  else
    { s with requestInFlight := false, timeoutTimerActive := false,
             backoff := (handleEndpointError errorType s.backoff).backoff,
             loopInterval :=
               ((handleEndpointError errorType s.backoff).newLoopInterval).getD
                 s.loopInterval }

/-- `handleApiResponse` on a successful body (lines 632-882): reset backoff,
restore the nominal interval, then `processInputs(inputs)` (lines 1428-1493),
which returns early when the loop has been stopped and otherwise replaces the
pending queue and kicks the pacer if it is idle. -/
def stepRespSuccess (s : ControllerState) (inputs : List ClaudeInput) : ControllerState :=
  if s.running then
    if ¬ s.pacingTimerActive then
      stepProcessNext
        { s with requestInFlight := false, timeoutTimerActive := false,
                 backoff := resetBackoff, loopInterval := LOOP_INTERVAL_MS,
                 pendingInputs := buildPendingInputs inputs }
    else
      { s with requestInFlight := false, timeoutTimerActive := false,
               backoff := resetBackoff, loopInterval := LOOP_INTERVAL_MS,
               pendingInputs := buildPendingInputs inputs }
  else
    { s with requestInFlight := false, timeoutTimerActive := false,
             backoff := resetBackoff, loopInterval := LOOP_INTERVAL_MS }

/-- The pacing-timer lambda (lines 77-86): release the held key, then
process the next pending input. -/
def stepPacingFire (s : ControllerState) : ControllerState :=
  if s.pacingTimerActive then
    stepProcessNext
      { s with pacingTimerActive := false,
               coreKeys := if 0 ≤ s.currentKey then coreClearKey s.coreKeys s.currentKey
                           else s.coreKeys,
               currentKey := -1 }
  else s

inductive ControllerEvent where
  | start
  | stop
  | tick
  | timeoutFire
  | pacingFire
  | respSuccess (inputs : List ClaudeInput)
  | respFailure (errorType : String)
  | setModel (m : AiModel)
  | setThinking (b : Bool)
  | setWebSearch (b : Bool)

def controllerStep (s : ControllerState) : ControllerEvent → ControllerState
  | .start => stepStart s
  | .stop => stepStop s
  | .tick => stepTick s
  | .timeoutFire => stepTimeoutFire s
  | .pacingFire => stepPacingFire s
  | .respSuccess inputs => stepRespSuccess s inputs
  | .respFailure errorType => stepRespFailure s errorType
  | .setModel m => stepSetModel s m
  | .setThinking b => stepSetThinkingEnabled s b
  | .setWebSearch b => stepSetWebSearchEnabled s b

/-- States reachable from some constructor state by a sequence of events. -/
inductive Reachable : ControllerState → Prop where
  | init (m : AiModel) (t w : Bool) : Reachable (initialState m t w)
  | next {s : ControllerState} (e : ControllerEvent) :
      Reachable s → Reachable (controllerStep s e)

/-- The controller's key/timer invariant: the core holds exactly the tracked
current key (so never more than one), a held key implies an armed pacing
timer, the model lock coincides with the loop running, and queued inputs
carry valid key codes. -/
def KeyInv (s : ControllerState) : Prop :=
  (s.coreKeys = if 0 ≤ s.currentKey then [s.currentKey] else []) ∧
  (0 ≤ s.currentKey → s.pacingTimerActive = true) ∧
  (s.modelLocked = s.running) ∧
  (∀ p ∈ s.pendingInputs, 0 ≤ p.keyCode)

/-! ## Helper lemmas -/

theorem emittedCount_le (o : Option (List Char)) : emittedCount o ≤ MAX_INPUT_COUNT := by
  cases o with
  | none => decide
  | some ds => exact min_le_right _ _

theorem parseInputsFromResponse_cases (r : List Char) :
    parseInputsFromResponse r = primaryInputs (cleanedInput r) ∨
    ∃ w, parseInputsFromResponse r = [{ button := w, count := 1 }] := by
  unfold parseInputsFromResponse
  cases h1 : primaryInputs (cleanedInput r) with
  | nil =>
    cases h2 : emergencyFallback (cleanedInput r) with
    | none => exact Or.inr ⟨"a", by simp [h1, h2]⟩
    | some w => exact Or.inr ⟨w, by simp [h1, h2]⟩
  | cons x xs => exact Or.inl (by simp [h1])

theorem backoffAfterFailures_eq (n : Nat) : backoffAfterFailures n = ⟨n, 2 ^ n⟩ := by
  induction n with
  | zero => rfl
  | succ k ih => simp [backoffAfterFailures, ih, applyFailure, pow_succ, Nat.mul_comm]

/-! ## Claims -/

/-- **C1.** For every response text in which neither the primary tokenizer
nor the substring fallback finds a recognized button name, the parser emits
exactly one fallback command — a single press (count 1) of the default
button `a` — and for every input text whatsoever the parser returns a
non-empty command list. -/
theorem C1_parser_default_fallback (response : List Char) :
    parseInputsFromResponse response ≠ [] ∧
    (primaryInputs (cleanedInput response) = [] →
      emergencyFallback (cleanedInput response) = none →
      parseInputsFromResponse response = [{ button := "a", count := 1 }]) := by
  constructor
  · unfold parseInputsFromResponse
    cases h1 : primaryInputs (cleanedInput response) with
    | nil => cases h2 : emergencyFallback (cleanedInput response) <;> simp [h1, h2]
    | cons x xs => simp [h1]
  · intro h1 h2
    unfold parseInputsFromResponse
    simp [h1, h2]

/-- Witness for C1: the response "xyz" contains no button token at all and
parses to the single default command. -/
theorem C1_parser_default_fallback_witness :
    parseInputsFromResponse (strL "xyz") = [{ button := "a", count := 1 }] :=
  (C1_parser_default_fallback (strL "xyz")).2 (by decide) (by decide)

/-- **C2, counterexample.** A `rate_limit_error` arriving when the
consecutive-error count is 0 (so 1 after the increment, below
`MAX_CONSECUTIVE_ERRORS = 3`) is escalated to critical immediately, whereas
the claim says rate-limit errors are recoverable with backoff until the
threshold is reached. -/
theorem C2_counterexample :
    (handleEndpointError "rate_limit_error" resetBackoff).outcome = ErrOutcome.critical ∧
    (handleEndpointError "rate_limit_error" resetBackoff).backoff.errors <
      MAX_CONSECUTIVE_ERRORS := by
  decide

/-- **C2 (amended).** Authentication/quota error kinds escalate to critical
immediately regardless of the consecutive-error count — and so do rate-limit
and overload kinds: all five recognized kinds (`rate_limit_error`,
`overloaded_error`, `insufficient_quota`, `invalid_api_key`,
`authentication_error`) are critical on first occurrence.  Only unrecognized
error kinds are treated as recoverable with backoff, escalating once the
incremented consecutive-error count reaches `MAX_CONSECUTIVE_ERRORS = 3`. -/
theorem C2_amended (errorType : String) (b : Backoff) :
    ((handleEndpointError errorType b).backoff = applyFailure b) ∧
    (errorType ∈ criticalErrorTypes →
      (handleEndpointError errorType b).outcome = ErrOutcome.critical) ∧
    (errorType ∉ criticalErrorTypes → b.errors + 1 < MAX_CONSECUTIVE_ERRORS →
      (handleEndpointError errorType b).outcome = ErrOutcome.recoverable ∧
      (handleEndpointError errorType b).newLoopInterval =
        some (LOOP_INTERVAL_MS + calculateBackoffMs (applyFailure b))) ∧
    (errorType ∉ criticalErrorTypes → MAX_CONSECUTIVE_ERRORS ≤ b.errors + 1 →
      (handleEndpointError errorType b).outcome = ErrOutcome.critical) := by
  refine ⟨?_, ?_, ?_, ?_⟩
  · simp only [handleEndpointError]
    split <;> rfl
  · intro h
    simp [handleEndpointError, h]
  · intro h hlt
    have hcond : ¬(errorType ∈ criticalErrorTypes ∨
        (applyFailure b).errors ≥ MAX_CONSECUTIVE_ERRORS) := by
      simp only [applyFailure, not_or, not_le]
      exact ⟨h, hlt⟩
    simp [handleEndpointError, hcond]
  · intro _ hge
    have hcond : errorType ∈ criticalErrorTypes ∨
        (applyFailure b).errors ≥ MAX_CONSECUTIVE_ERRORS := Or.inr hge
    simp [handleEndpointError, hcond]

/-- Witness for C2 (amended): an authentication error escalates at once; an
unrecognized error kind with count 1 is recoverable. -/
theorem C2_amended_witness :
    (handleEndpointError "authentication_error" resetBackoff).outcome =
      ErrOutcome.critical ∧
    (handleEndpointError "api_error" resetBackoff).outcome =
      ErrOutcome.recoverable :=
  ⟨(C2_amended "authentication_error" resetBackoff).2.1 (by decide),
   ((C2_amended "api_error" resetBackoff).2.2.1 (by decide) (by decide)).1⟩

/-- **C3, counterexample.** After N = 1 consecutive failure (from a fresh
state) the delay added before the next turn is
min(BASE × 2^1, MAX) = 2000 ms, not the claim's
min(BASE × 2^(1-1), MAX) = 1000 ms: the multiplier is doubled *before* the
delay is computed and applied. -/
theorem C3_counterexample :
    calculateBackoffMs (applyFailure resetBackoff) = 2000 ∧
    min (BASE_BACKOFF_MS * 2 ^ (1 - 1)) MAX_BACKOFF_MS = 1000 ∧
    (handleTimeout resetBackoff).newLoopInterval =
      some (LOOP_INTERVAL_MS + 2000) := by
  decide

/-- **C3 (amended).** Each failure increments the error count and doubles the
multiplier, and the doubling happens before the delay is computed, so after N
consecutive failures from a fresh state the backoff state is (N, 2^N) and the
delay applied before the next turn is min(BASE_BACKOFF_MS × 2^N,
MAX_BACKOFF_MS) — applied only while the incremented count is still below
MAX_CONSECUTIVE_ERRORS (otherwise the loop escalates and stops instead); a
single success resets the state to (0, 1) and restores the nominal
scheduling interval. -/
theorem C3_amended (n : Nat) (b : Backoff) :
    (backoffAfterFailures n).errors = n ∧
    (backoffAfterFailures n).multiplier = 2 ^ n ∧
    calculateBackoffMs (backoffAfterFailures n) =
      min (BASE_BACKOFF_MS * 2 ^ n) MAX_BACKOFF_MS ∧
    (handleTimeout (backoffAfterFailures n)).newLoopInterval =
      (if n + 1 < MAX_CONSECUTIVE_ERRORS then
        some (LOOP_INTERVAL_MS + min (BASE_BACKOFF_MS * 2 ^ (n + 1)) MAX_BACKOFF_MS)
      else none) ∧
    handleSuccess b = (⟨0, 1⟩, LOOP_INTERVAL_MS) := by
  have he := backoffAfterFailures_eq n
  refine ⟨by rw [he], by rw [he], by rw [he]; rfl, ?_, rfl⟩
  rw [handleTimeout, he]
  simp only [applyFailure, calculateBackoffMs, pow_succ, MAX_CONSECUTIVE_ERRORS, ge_iff_le]
  rcases Nat.lt_or_ge (n + 1) 3 with hlt | hge
  · rw [if_neg (by omega), if_pos hlt]
  · rw [if_pos (by omega), if_neg (by omega)]

/-- **C4, counterexample.** The response "INPUTS: up 0" parses the token `up`
with repeat count 0: the emitted count is `qMin(0, MAX_INPUT_COUNT) = 0`,
not the claim's clamp to [1, MAX_REPEAT] (which would give 1) — the code
clamps from above only. -/
theorem C4_counterexample :
    parseInputsFromResponse (strL "INPUTS: up 0") = [{ button := "up", count := 0 }] ∧
    specClampCount 0 = 1 := by
  decide

/-- **C4 (amended).** The emitted count of a parsed button token is
`min(n, MAX_REPEAT)` with MAX_REPEAT = MAX_INPUT_COUNT = 10, where n is the
value of its digit group (0 when absent-from-int-range), and 1 when no count
is given; in particular every emitted count is ≤ 10, and for any parsed
count n with 1 ≤ n ≤ INT_MAX the emitted count coincides with the claim's
clamp to [1, 10]. -/
theorem C4_amended :
    (∀ response, ∀ i ∈ parseInputsFromResponse response, i.count ≤ MAX_INPUT_COUNT) ∧
    (∀ ds, 1 ≤ digitsToNat ds → digitsToNat ds ≤ 2147483647 →
      emittedCount (some ds) = specClampCount (digitsToNat ds)) ∧
    emittedCount none = 1 := by
  refine ⟨?_, ?_, rfl⟩
  · intro r i hi
    rcases parseInputsFromResponse_cases r with h | ⟨w, h⟩
    · rw [h] at hi
      unfold primaryInputs at hi
      obtain ⟨t, _, rfl⟩ := List.mem_map.mp hi
      exact emittedCount_le _
    · rw [h] at hi
      simp only [List.mem_singleton] at hi
      subst hi
      show (1 : Nat) ≤ MAX_INPUT_COUNT
      decide
  · intro ds h1 h2
    show min (qStringToInt ds) MAX_INPUT_COUNT = specClampCount (digitsToNat ds)
    unfold qStringToInt specClampCount
    rw [if_pos h2]
    exact (max_eq_right (le_min h1 (by decide))).symm

/-- Witness for C4 (amended): "INPUTS: up 3" emits count 3 ≤ 10, and a digit
group "3" gives exactly the clamped count. -/
theorem C4_amended_witness :
    ClaudeInput.count { button := "up", count := 3 } ≤ MAX_INPUT_COUNT ∧
    emittedCount (some ['3']) = specClampCount (digitsToNat ['3']) :=
  ⟨C4_amended.1 (strL "INPUTS: up 3") { button := "up", count := 3 } (by decide),
   C4_amended.2.1 ['3'] (by decide) (by decide)⟩

/-- **C7, counterexample.** The store (notes = [], next-id = 2) is reachable
(add a note, then clear it by id); on it `clearAllNotes` is a no-op, so the
next-id stays 2 instead of 1 as the claim requires for every store state. -/
theorem C7_counterexample :
    clearNote (addNote initialNotesState "t" "x") 1 =
      NotesState.mk [] 2 ∧
    clearAllNotes (NotesState.mk [] 2) = NotesState.mk [] 2 ∧
    (clearAllNotes (NotesState.mk [] 2)).nextNoteId ≠ 1 := by
  decide

/-- **C7 (amended).** `clearAllNotes` always leaves the note count at 0 and
is idempotent; it resets the next-note-id to 1 exactly when the store was
non-empty — on an already-empty store it is a no-op, so a next-id greater
than 1 survives it. -/
theorem C7_amended :
    (∀ s : NotesState, (clearAllNotes s).notes = []) ∧
    (∀ s : NotesState, clearAllNotes (clearAllNotes s) = clearAllNotes s) ∧
    (∀ s : NotesState, s.notes ≠ [] → (clearAllNotes s).notes = [] ∧
      (clearAllNotes s).nextNoteId = 1) ∧
    (∀ s : NotesState, s.notes = [] → clearAllNotes s = s) := by
  have hempty : ∀ s : NotesState, s.notes = [] → clearAllNotes s = s := by
    intro s h
    unfold clearAllNotes
    rw [if_pos (List.isEmpty_iff.mpr h)]
  have hne : ∀ s : NotesState, s.notes ≠ [] →
      clearAllNotes s = NotesState.mk [] 1 := by
    intro s h
    unfold clearAllNotes
    rw [if_neg (by simpa [List.isEmpty_iff] using h)]
  have hnil : ∀ s : NotesState, (clearAllNotes s).notes = [] := by
    intro s
    by_cases h : s.notes = []
    · rw [hempty s h, h]
    · rw [hne s h]
  refine ⟨hnil, ?_, ?_, hempty⟩
  · intro s
    exact hempty _ (hnil s)
  · intro s h
    rw [hne s h]
    exact ⟨rfl, rfl⟩

/-- Witness for C7 (amended): clearing a one-note store yields count 0 and
next-id 1; clearing the empty store with next-id 5 changes nothing. -/
theorem C7_amended_witness :
    (clearAllNotes (NotesState.mk
      [{ id := 1, timestamp := "t", content := "x",
         verificationStatus := "UNVERIFIED", writtenThisTurn := true }] 2)).nextNoteId = 1 ∧
    clearAllNotes (NotesState.mk [] 5) = NotesState.mk [] 5 :=
  ⟨(C7_amended.2.2.1 _ (by decide)).2, C7_amended.2.2.2 _ rfl⟩

/-- **C5.** Result classification of a completed turn record.  The hypothesis
`mono` reflects the controller's position tracking: `m_hasKnownPosition` is
only ever set (readGameState, lines 1331-1334), and `m_hasPositionBefore` is
a copy of it taken at the start of the turn (lines 282-284), so in every
completed turn before-availability implies after-availability.  Under it:
SUCCESS only with a directional command, ground truth on both sides and
differing coordinates; FAILED whenever a directional command's before/after
coordinates are identical (ground truth available); UNKNOWN whenever no
directional command was issued or ground truth was missing. -/
theorem C5_turn_scoring (inputs : List ClaudeInput) (p : PositionState)
    (mono : p.hasPositionBefore = true → p.hasKnownPosition = true) :
    ((scoreTurn inputs p).1 = TurnResult.SUCCESS →
      isMovementCommandList inputs = true ∧ p.hasPositionBefore = true ∧
      p.hasKnownPosition = true ∧
      (p.positionBeforeX ≠ p.lastKnownX ∨ p.positionBeforeY ≠ p.lastKnownY)) ∧
    (isMovementCommandList inputs = true → p.hasPositionBefore = true →
      p.positionBeforeX = p.lastKnownX → p.positionBeforeY = p.lastKnownY →
      (scoreTurn inputs p).1 = TurnResult.FAILED) ∧
    ((isMovementCommandList inputs = false ∨ p.hasPositionBefore = false ∨
        p.hasKnownPosition = false) →
      (scoreTurn inputs p).1 = TurnResult.UNKNOWN) := by
  unfold scoreTurn positionChanged
  cases hm : isMovementCommandList inputs <;>
    cases hb : p.hasPositionBefore <;>
    cases hk : p.hasKnownPosition <;>
    by_cases hx : p.positionBeforeX = p.lastKnownX <;>
    by_cases hy : p.positionBeforeY = p.lastKnownY <;>
    simp_all

/-- Witness for C5: a `down` command with ground truth (5,5) → (5,5) scores
FAILED. -/
theorem C5_turn_scoring_witness :
    (scoreTurn [{ button := "down", count := 1 }]
      ⟨true, 5, 5, true, 5, 5⟩).1 = TurnResult.FAILED :=
  (C5_turn_scoring _ _ (fun _ => rfl)).2.1 (by decide) rfl rfl rfl

/-! Characterization of the `checkForStuckPattern` scan loop. -/

theorem dirListOfInputs_cons (x : String) (l : List String) :
    dirListOfInputs (x :: l) =
      if isDirectionalButton (firstTokenLower x) = true then
        firstTokenLower x :: dirListOfInputs l
      else dirListOfInputs l := by
  simp only [dirListOfInputs, List.map_cons, List.filter_cons]

theorem isDirectionalButton_ne_empty {b : String}
    (h : isDirectionalButton b = true) : ¬ b = "" := by
  intro he
  subst he
  exact absurd h (by decide)

theorem foldl_stuckStep_set (l : List String) (d : String) (c : Nat)
    (hd : isDirectionalButton d = true) :
    l.foldl stuckStep ⟨d, c, true⟩ = ⟨d, c + (dirListOfInputs l).count d, true⟩ := by
  induction l generalizing c with
  | nil => simp [dirListOfInputs]
  | cons x l ih =>
    have hne : ¬ d = "" := isDirectionalButton_ne_empty hd
    rw [List.foldl_cons, dirListOfInputs_cons]
    by_cases hx : isDirectionalButton (firstTokenLower x) = true
    · rw [if_pos hx]
      by_cases heq : firstTokenLower x = d
      · have hstep : stuckStep ⟨d, c, true⟩ x = ⟨d, c + 1, true⟩ := by
          unfold stuckStep
          rw [if_pos hx, if_neg hne, if_pos heq]
        rw [hstep, ih, heq, List.count_cons_self]
        simp only [StuckScan.mk.injEq, true_and, and_true]
        omega
      · have hstep : stuckStep ⟨d, c, true⟩ x = ⟨d, c, true⟩ := by
          unfold stuckStep
          rw [if_pos hx, if_neg hne, if_neg heq]
        rw [hstep, ih, List.count_cons_of_ne (fun h => heq h.symm)]
    · rw [if_neg hx]
      have hstep : stuckStep ⟨d, c, true⟩ x = ⟨d, c, true⟩ := by
        unfold stuckStep
        rw [if_neg hx]
      rw [hstep, ih]

theorem foldl_stuckStep_init (l : List String) :
    l.foldl stuckStep ⟨"", 0, false⟩ =
      (match dirListOfInputs l with
       | [] => ⟨"", 0, false⟩
       | d :: ds => ⟨d, 1 + ds.count d, true⟩) := by
  induction l with
  | nil => rfl
  | cons x l ih =>
    rw [List.foldl_cons, dirListOfInputs_cons]
    by_cases hx : isDirectionalButton (firstTokenLower x) = true
    · rw [if_pos hx]
      have hstep : stuckStep ⟨"", 0, false⟩ x = ⟨firstTokenLower x, 1, true⟩ := by
        unfold stuckStep
        rw [if_pos hx, if_pos rfl]
      rw [hstep, foldl_stuckStep_set l _ 1 hx]
    · rw [if_neg hx]
      have hstep : stuckStep ⟨"", 0, false⟩ x = ⟨"", 0, false⟩ := by
        unfold stuckStep
        rw [if_neg hx]
      rw [hstep, ih]

theorem stuckAdviceText_ne_empty (d : String) : stuckAdviceText d ≠ "" := by
  intro h
  have hl := congrArg String.length h
  rw [stuckAdviceText] at hl
  simp only [String.length_append] at hl
  have h1 : 0 < ("## STUCK WARNING\nYou've pressed ").length := by decide
  have h0 : ("" : String).length = 0 := rfl
  rw [h0] at hl
  omega

/-- **C6, counterexample.** In the turn history whose last 3 turns carry the
directional commands down, up, up, up, up — with turn records showing no
positional movement at all — the direction `up` occurs 4 times with no net
movement, yet `checkForStuckPattern` returns the empty string (its counter
follows only the *first* directional token seen, here `down`, and it never
consults positions). -/
theorem C6_counterexample :
    specSameDirectionRepeated exStuckHistory ∧
    specNoNetMovement exStuckRecords ∧
    checkForStuckPattern exStuckHistory = "" := by
  refine ⟨⟨"up", by decide, by decide⟩, ?_, by decide⟩
  unfold specNoNetMovement
  decide

/-- **C6 (amended).** `checkForStuckPattern` returns a non-empty advisory
exactly when the history has at least 2 turns and the *first* directional
token among the last 3 turns' inputs recurs at least 4 times in that window
(counting itself); net positional movement is not consulted at all.  The
true half of the original claim remains: when every direction occurs at most
3 times in the window, the result is the empty string. -/
theorem C6_amended (th : List TurnHistoryEntry) :
    (checkForStuckPattern th ≠ "" ↔
      (2 ≤ th.length ∧ ∃ d ds, dirTokens th = d :: ds ∧ 4 ≤ (d :: ds).count d)) ∧
    ((∀ d : String, (dirTokens th).count d ≤ 3) → checkForStuckPattern th = "") := by
  have hmain : checkForStuckPattern th ≠ "" ↔
      (2 ≤ th.length ∧ ∃ d ds, dirTokens th = d :: ds ∧ 4 ≤ (d :: ds).count d) := by
    unfold checkForStuckPattern stuckScanResult
    rw [foldl_stuckStep_init]
    by_cases hlen : th.length < 2
    · rw [if_pos hlen]
      constructor
      · intro h
        exact absurd rfl h
      · rintro ⟨h2, -⟩
        omega
    · rw [if_neg hlen]
      cases hd : dirListOfInputs ((lastTurnsWindow th).flatMap fun t => t.inputs) with
      | nil => simp [dirTokens, hd]
      | cons d ds =>
        change (if 4 ≤ 1 + List.count d ds ∧ true = true then stuckAdviceText d else "") ≠ "" ↔ _
        by_cases hc : 4 ≤ 1 + ds.count d
        · rw [if_pos ⟨hc, rfl⟩]
          constructor
          · intro _
            refine ⟨by omega, d, ds, hd, ?_⟩
            rw [List.count_cons_self]
            omega
          · intro _
            exact stuckAdviceText_ne_empty d
        · rw [if_neg (fun hcon => hc hcon.1)]
          constructor
          · intro h
            exact absurd rfl h
          · rintro ⟨-, d', ds', heq, hcnt⟩
            have h2 : d :: ds = d' :: ds' := by
              rw [← hd]
              exact heq
            cases h2
            rw [List.count_cons_self] at hcnt
            exact absurd hcnt (by omega)
  refine ⟨hmain, ?_⟩
  intro hall
  by_contra h
  obtain ⟨-, d, ds, heq, hcnt⟩ := hmain.mp h
  have hle := hall d
  rw [heq] at hle
  omega

/-- Witness for C6 (amended): a single-turn history with only the button `a`
has no direction occurring more than 3 times, so no advisory is raised. -/
theorem C6_amended_witness :
    checkForStuckPattern [⟨"t", ["a"]⟩] = "" :=
  (C6_amended _).2 (fun d => by
    rw [show dirTokens [⟨"t", ["a"]⟩] = [] from rfl]
    simp)

/-! Characterization of the pacer trace. -/

theorem pacerFuel_cons (p : PendingInput) (rest : List PendingInput) :
    pacerFuel (p :: rest) = p.remainingCount + 1 + pacerFuel rest := rfl

theorem pacerEventsAux_expand (fuel : Nat) :
    ∀ q : List PendingInput, pacerFuel q ≤ fuel →
      pacerEventsAux fuel q = q.flatMap expandPending := by
  induction fuel with
  | zero =>
    intro q hq
    cases q with
    | nil => rfl
    | cons p rest =>
      exfalso
      rw [pacerFuel_cons] at hq
      omega
  | succ fuel ih =>
    intro q hq
    cases q with
    | nil => rfl
    | cons p rest =>
      rw [pacerFuel_cons] at hq
      by_cases hc : p.remainingCount ≤ 1
      · unfold pacerEventsAux
        rw [if_pos hc, ih rest (by omega), List.flatMap_cons]
        unfold expandPending
        rw [Nat.max_eq_right hc]
        rfl
      · unfold pacerEventsAux
        have hrc : ({ p with remainingCount := p.remainingCount - 1 } : PendingInput).remainingCount =
            p.remainingCount - 1 := rfl
        rw [if_neg hc,
          ih ({ p with remainingCount := p.remainingCount - 1 } :: rest)
            (by rw [pacerFuel_cons, hrc]; omega),
          List.flatMap_cons, List.flatMap_cons]
        unfold expandPending
        rw [hrc, Nat.max_eq_left (by omega), Nat.max_eq_left (by omega)]
        obtain ⟨k, hk⟩ : ∃ k, p.remainingCount = k + 1 := ⟨p.remainingCount - 1, by omega⟩
        rw [hk, Nat.add_sub_cancel]
        have hd : pendingDuration { p with remainingCount := k } = pendingDuration p := rfl
        have hkc : ({ p with remainingCount := k } : PendingInput).keyCode = p.keyCode := rfl
        rw [hd, hkc, List.replicate_succ, List.cons_append]

theorem pacerRun_expand (q : List PendingInput) :
    pacerRun q = q.flatMap expandPending :=
  pacerEventsAux_expand (pacerFuel q) q le_rfl

theorem buildPendingInputs_flatMap (inputs : List ClaudeInput) :
    (buildPendingInputs inputs).flatMap expandPending =
      inputs.flatMap inputPressEvents := by
  induction inputs with
  | nil => rfl
  | cons i l ih =>
    unfold buildPendingInputs at ih ⊢
    rw [List.filterMap_cons]
    cases h : toPendingInput i with
    | none => simp [inputPressEvents, h, ih]
    | some p => simp [inputPressEvents, h, ih]

theorem getGBAKeyCode_directional_nonneg {b : String}
    (h : isDirectionalButton b = true) : 0 ≤ getGBAKeyCode b := by
  have h4 : lowerStr b = "up" ∨ lowerStr b = "down" ∨ lowerStr b = "left" ∨
      lowerStr b = "right" := by
    unfold isDirectionalButton at h
    simpa using h
  unfold getGBAKeyCode
  rcases h4 with h | h | h | h <;>
    simp [h, GBA_KEY_UP, GBA_KEY_DOWN, GBA_KEY_LEFT, GBA_KEY_RIGHT]

/-- **C8.** The pacer trace: the command list [up×3, a×1] yields exactly two
press events in that order, the directional one a single hold of
DIRECTION_HOLD_MS × 3, the button press a 50 ms tap, with the hold released
before the tap starts (each trace event is released by the pacing timer
before the next press fires).  In general, for commands with counts ≥ 1, the
drained trace is the FIFO concatenation of per-command traces: one scaled
hold for a directional command with count > 1, and `count` separately paced
taps for a non-directional command. -/
theorem C8_pacer_collapse (inputs : List ClaudeInput)
    (hcounts : ∀ i ∈ inputs, 1 ≤ i.count) :
    pacerRun (buildPendingInputs
        [{ button := "up", count := 3 }, { button := "a", count := 1 }]) =
      [{ keyCode := GBA_KEY_UP, holdMs := DIRECTION_HOLD_MS * 3 },
       { keyCode := GBA_KEY_A, holdMs := INPUT_PACING_MS }] ∧
    pacerRun (buildPendingInputs inputs) = inputs.flatMap inputPressEvents ∧
    (∀ i ∈ inputs, isDirectionalButton i.button = true → 1 < i.count →
      inputPressEvents i =
        [{ keyCode := getGBAKeyCode i.button, holdMs := DIRECTION_HOLD_MS * i.count }]) ∧
    (∀ i ∈ inputs, isDirectionalButton i.button = false →
      0 ≤ getGBAKeyCode i.button →
      inputPressEvents i =
        List.replicate i.count
          { keyCode := getGBAKeyCode i.button, holdMs := INPUT_PACING_MS }) := by
  refine ⟨by decide, ?_, ?_, ?_⟩
  · rw [pacerRun_expand, buildPendingInputs_flatMap]
  · intro i hi hdir hcount
    have hk := getGBAKeyCode_directional_nonneg hdir
    unfold inputPressEvents toPendingInput
    rw [if_neg (not_lt.mpr hk)]
    unfold expandPending pendingDuration
    rw [if_pos ⟨hdir, hcount⟩]
    show List.replicate (max 1 1) _ = _
    rw [if_pos ⟨hdir, hcount⟩]
    rfl
  · intro i hi hndir hk
    have hfalse : ¬ (isDirectionalButton i.button = true ∧ 1 < i.count) := by
      intro hcon
      rw [hndir] at hcon
      exact absurd hcon.1 (by decide)
    unfold inputPressEvents toPendingInput
    rw [if_neg (not_lt.mpr hk)]
    unfold expandPending pendingDuration
    rw [if_neg hfalse]
    show List.replicate (max i.count 1) _ = _
    rw [if_neg hfalse, Nat.max_eq_left (hcounts i hi)]

/-- Witness for C8 at the concrete command list [up×3, a×1]. -/
theorem C8_pacer_collapse_witness :
    pacerRun (buildPendingInputs
        [{ button := "up", count := 3 }, { button := "a", count := 1 }]) =
      [{ keyCode := GBA_KEY_UP, holdMs := DIRECTION_HOLD_MS * 3 },
       { keyCode := GBA_KEY_A, holdMs := INPUT_PACING_MS }] :=
  (C8_pacer_collapse
    [{ button := "up", count := 3 }, { button := "a", count := 1 }]
    (by decide)).1

/-! Key/timer invariant of the controller machine. -/

theorem keyInv_initialState (m : AiModel) (t w : Bool) :
    KeyInv (initialState m t w) := by
  refine ⟨rfl, ?_, rfl, ?_⟩
  · intro h
    exact absurd (show (0 : Int) ≤ -1 from h) (by decide)
  · intro p hp
    exact absurd hp (List.not_mem_nil p)

theorem buildPendingInputs_nonneg (inputs : List ClaudeInput) :
    ∀ p ∈ buildPendingInputs inputs, 0 ≤ p.keyCode := by
  intro p hp
  obtain ⟨i, _, hi⟩ := List.mem_filterMap.mp hp
  unfold toPendingInput at hi
  by_cases hk : getGBAKeyCode i.button < 0
  · rw [if_pos hk] at hi
    exact absurd hi (by simp)
  · rw [if_neg hk] at hi
    injection hi with hi
    rw [← hi]
    exact le_of_not_lt hk

theorem keyInv_stepStop {s : ControllerState} (h : KeyInv s) : KeyInv (stepStop s) := by
  obtain ⟨h1, h2, h3, h4⟩ := h
  refine ⟨?_, ?_, rfl, ?_⟩
  · show (if 0 ≤ s.currentKey then coreClearKey s.coreKeys s.currentKey else s.coreKeys) =
      if (0 : Int) ≤ -1 then [(-1 : Int)] else []
    rw [if_neg (show ¬ (0 : Int) ≤ -1 by decide)]
    by_cases hck : 0 ≤ s.currentKey
    · rw [if_pos hck, h1, if_pos hck]
      simp [coreClearKey]
    · rw [if_neg hck, h1, if_neg hck]
  · intro hc
    exact absurd (show (0 : Int) ≤ -1 from hc) (by decide)
  · intro p hp
    exact absurd hp (List.not_mem_nil p)

theorem keyInv_stepProcessNext {s : ControllerState}
    (hpend : ∀ p ∈ s.pendingInputs, 0 ≤ p.keyCode)
    (hkeys : s.coreKeys = []) (hcur : ¬ 0 ≤ s.currentKey)
    (hlock : s.modelLocked = s.running) :
    KeyInv (stepProcessNext s) := by
  unfold stepProcessNext
  split
  · exact ⟨by rw [hkeys, if_neg hcur], fun hc => absurd hc hcur, hlock, hpend⟩
  · rename_i front rest heq
    split
    · rename_i hr
      have hfk : 0 ≤ front.keyCode :=
        hpend front (by rw [heq]; exact List.mem_cons_self _ _)
      refine ⟨?_, fun _ => rfl, hlock, ?_⟩
      · show coreAddKey s.coreKeys front.keyCode =
          if 0 ≤ front.keyCode then [front.keyCode] else []
        rw [hkeys, if_pos hfk]
        simp [coreAddKey]
      · intro p hp
        replace hp : p ∈ (if front.remainingCount ≤ 1 then rest
            else { front with remainingCount := front.remainingCount - 1 } :: rest) := hp
        by_cases hrc : front.remainingCount ≤ 1
        · rw [if_pos hrc] at hp
          exact hpend p (by rw [heq]; exact List.mem_cons_of_mem _ hp)
        · rw [if_neg hrc] at hp
          rcases List.mem_cons.mp hp with rfl | hp2
          · exact hfk
          · exact hpend p (by rw [heq]; exact List.mem_cons_of_mem _ hp2)
    · exact ⟨by rw [hkeys, if_neg hcur], fun hc => absurd hc hcur, hlock, hpend⟩

theorem keyInv_controllerStep {s : ControllerState} (e : ControllerEvent)
    (h : KeyInv s) : KeyInv (controllerStep s e) := by
  obtain ⟨h1, h2, h3, h4⟩ := h
  cases e with
  | start => exact ⟨h1, h2, rfl, h4⟩
  | stop => exact keyInv_stepStop ⟨h1, h2, h3, h4⟩
  | tick =>
    show KeyInv (stepTick s)
    unfold stepTick
    split
    · exact ⟨h1, h2, h3, h4⟩
    · exact ⟨h1, h2, h3, h4⟩
  | timeoutFire =>
    show KeyInv (stepTimeoutFire s)
    unfold stepTimeoutFire
    split
    · split
      · split
        · exact keyInv_stepStop ⟨h1, h2, h3, h4⟩
        · exact ⟨h1, h2, h3, h4⟩
      · exact ⟨h1, h2, h3, h4⟩
    · exact ⟨h1, h2, h3, h4⟩
  | pacingFire =>
    show KeyInv (stepPacingFire s)
    unfold stepPacingFire
    by_cases hp : s.pacingTimerActive = true
    · rw [if_pos hp]
      apply keyInv_stepProcessNext
      · exact h4
      · show (if 0 ≤ s.currentKey then coreClearKey s.coreKeys s.currentKey
            else s.coreKeys) = []
        by_cases hck : 0 ≤ s.currentKey
        · rw [if_pos hck, h1, if_pos hck]
          simp [coreClearKey]
        · rw [if_neg hck, h1, if_neg hck]
      · exact fun hc => absurd (show (0 : Int) ≤ -1 from hc) (by decide)
      · exact h3
    · rw [if_neg hp]
      exact ⟨h1, h2, h3, h4⟩
  | respSuccess inputs =>
    show KeyInv (stepRespSuccess s inputs)
    unfold stepRespSuccess
    by_cases hr : s.running = true
    · rw [if_pos hr]
      by_cases hpa : s.pacingTimerActive = true
      · rw [if_neg (not_not_intro hpa)]
        exact ⟨h1, h2, h3, buildPendingInputs_nonneg inputs⟩
      · rw [if_pos hpa]
        apply keyInv_stepProcessNext
        · exact buildPendingInputs_nonneg inputs
        · show s.coreKeys = []
          have hcur : ¬ 0 ≤ s.currentKey := fun hc => hpa (h2 hc)
          rw [h1, if_neg hcur]
        · exact fun hc => hpa (h2 hc)
        · exact h3
    · rw [if_neg hr]
      exact ⟨h1, h2, h3, h4⟩
  | respFailure errorType =>
    show KeyInv (stepRespFailure s errorType)
    unfold stepRespFailure
    split
    · exact keyInv_stepStop ⟨h1, h2, h3, h4⟩
    · exact ⟨h1, h2, h3, h4⟩
  | setModel m =>
    show KeyInv (stepSetModel s m)
    unfold stepSetModel
    split
    · exact ⟨h1, h2, h3, h4⟩
    · exact ⟨h1, h2, h3, h4⟩
  | setThinking b =>
    show KeyInv (stepSetThinkingEnabled s b)
    unfold stepSetThinkingEnabled
    split
    · exact ⟨h1, h2, h3, h4⟩
    · exact ⟨h1, h2, h3, h4⟩
  | setWebSearch b =>
    show KeyInv (stepSetWebSearchEnabled s b)
    unfold stepSetWebSearchEnabled
    split
    · exact ⟨h1, h2, h3, h4⟩
    · exact ⟨h1, h2, h3, h4⟩

theorem reachable_keyInv {s : ControllerState} (h : Reachable s) : KeyInv s := by
  induction h with
  | init m t w => exact keyInv_initialState m t w
  | next e _ ih => exact keyInv_controllerStep e ih

/-- **C9.** At every reachable state of the controller at most one key is
asserted in the core, and `stopGameLoop` from any reachable state releases
the held key (leaving no key asserted), clears the pending-input queue,
resets the tracked key, and disarms the loop, timeout and pacing timers. -/
theorem C9_single_key_and_clean_stop (s : ControllerState) (h : Reachable s) :
    s.coreKeys.length ≤ 1 ∧
    (controllerStep s ControllerEvent.stop).coreKeys = [] ∧
    (controllerStep s ControllerEvent.stop).currentKey = -1 ∧
    (controllerStep s ControllerEvent.stop).pendingInputs = [] ∧
    (controllerStep s ControllerEvent.stop).loopTimerActive = false ∧
    (controllerStep s ControllerEvent.stop).timeoutTimerActive = false ∧
    (controllerStep s ControllerEvent.stop).pacingTimerActive = false := by
  obtain ⟨h1, h2, h3, h4⟩ := reachable_keyInv h
  refine ⟨?_, ?_, rfl, rfl, rfl, rfl, rfl⟩
  · rw [h1]
    split
    · exact le_refl 1
    · exact Nat.zero_le 1
  · show (if 0 ≤ s.currentKey then coreClearKey s.coreKeys s.currentKey
        else s.coreKeys) = []
    by_cases hck : 0 ≤ s.currentKey
    · rw [if_pos hck, h1, if_pos hck]
      simp [coreClearKey]
    · rw [if_neg hck, h1, if_neg hck]

/-- Witness for C9 at the reachable constructor state. -/
theorem C9_single_key_and_clean_stop_witness :
    (initialState AiModel.ModelSonnet false false).coreKeys.length ≤ 1 ∧
    (controllerStep (initialState AiModel.ModelSonnet false false)
      ControllerEvent.stop).coreKeys = [] := by
  have h := C9_single_key_and_clean_stop _
    (Reachable.init AiModel.ModelSonnet false false)
  exact ⟨h.1, h.2.1⟩

/-- **C10.** While the loop is running, the model choice and the feature
flags are locked: at every reachable state with `running = true`, the
invariant `modelLocked = running` makes `setModel`, `setThinkingEnabled` and
`setWebSearchEnabled` leave the whole state unchanged, so every request
issued within one run uses the model and flags in force when
`startGameLoop` set the lock. -/
theorem C10_settings_locked_while_running (s : ControllerState)
    (h : Reachable s) (hr : s.running = true) (m : AiModel) (t w : Bool) :
    controllerStep s (ControllerEvent.setModel m) = s ∧
    controllerStep s (ControllerEvent.setThinking t) = s ∧
    controllerStep s (ControllerEvent.setWebSearch w) = s := by
  have hlock : s.modelLocked = true := by
    rw [(reachable_keyInv h).2.2.1, hr]
  refine ⟨?_, ?_, ?_⟩
  · show stepSetModel s m = s
    unfold stepSetModel
    rw [if_pos hlock]
  · show stepSetThinkingEnabled s t = s
    unfold stepSetThinkingEnabled
    rw [if_pos hlock]
  · show stepSetWebSearchEnabled s w = s
    unfold stepSetWebSearchEnabled
    rw [if_pos hlock]

/-- Witness for C10: after `startGameLoop`, `setModel` is a no-op. -/
theorem C10_settings_locked_while_running_witness :
    controllerStep
        (controllerStep (initialState AiModel.ModelSonnet false false)
          ControllerEvent.start)
        (ControllerEvent.setModel AiModel.ModelOpus) =
      controllerStep (initialState AiModel.ModelSonnet false false)
        ControllerEvent.start :=
  (C10_settings_locked_while_running _
    (Reachable.next ControllerEvent.start
      (Reachable.init AiModel.ModelSonnet false false))
    rfl AiModel.ModelOpus false false).1

end Claudemon
